import Mathlib

/-!
Shallow embedding of the chat session view of `src/components/chat-window.jsx`
(repository `crda-frontend`): message-timeline grouping into calendar-day
sections, the send pipeline, the history-load effect with its fetch guard and
insight auto-ask, the sequential upload loop and the upload-removal scheduling.
Timestamps are modelled abstractly: a JavaScript `Date` is represented by its
local calendar decomposition (year, month, day) together with its epoch value,
so that `getFullYear()/getMonth()/getDate()` are field reads and time-zone
arithmetic never enters the embedding.
-/

namespace CrdaFrontend

/-- JavaScript `String.prototype.trim()`: remove leading and trailing
whitespace. (Defined over the character list so that it evaluates by kernel
reduction.) -/
def jsTrim (s : String) : String :=
  ⟨((s.data.dropWhile Char.isWhitespace).reverse.dropWhile Char.isWhitespace).reverse⟩

/-- A JavaScript `Date`, abstracted to the observations `chat-window.jsx` makes
of it: the epoch milliseconds (`getTime()`) and the local calendar fields
(`getFullYear()`, `getMonth()`, `getDate()`). -/
structure JsDate where
  time : Int
  year : Int
  month : Nat
  day : Nat
  deriving Repr, DecidableEq

/-- The `createdAt` field of a message as `new Date(m.createdAt)` sees it:
absent (falsy), present but unparseable (`isNaN(d.getTime())`), or a valid
date. -/
inductive CreatedAt where
  | missing
  | invalid
  | valid (d : JsDate)
  deriving Repr, DecidableEq

/-- A message as consumed by the chat window. -/
structure Message where
  id : String
  type : String
  content : String
  createdAt : CreatedAt
  deriving Repr, DecidableEq

/-- Lines 359-360 of `chat-window.jsx`:
`let d = m.createdAt ? new Date(m.createdAt) : new Date();`
`if (isNaN(d.getTime())) d = new Date();` — a missing or unparseable
`createdAt` is replaced by the current time. -/
def resolveDate (m : Message) (now : JsDate) : JsDate :=
  match m.createdAt with
  | .valid d => d
  | _ => now

/-- Line 361: the section key `` `${d.getFullYear()}-${d.getMonth()}-${d.getDate()}` ``. -/
def dayKey (d : JsDate) : Int × Nat × Nat :=
  (d.year, d.month, d.day)

/-- The pieces of local component state that the `send` callback
(lines 318-336) reads or writes, together with the calls it makes into the
external data context (`setMessage`, the optimistic local append, and
`sendMessage`, the network send), recorded as event lists. -/
structure SendState where
  inputValue : String
  isThinking : Bool
  sendError : Option String
  setMessageCalls : List (String × String)
  sendMessageCalls : List (String × String × String)
  deriving Repr, DecidableEq

/-- The message of the send-failure alert (line 330). -/
def sendErrorText : String := "Failed to send. Please try again."

/-- The `send` callback, lines 318-336 of `chat-window.jsx`. `text` is
`some t` when `send` is called with a string argument (suggestion chip,
follow-up chip, or the imperative `triggerSend`) and `none` when called with
no argument (send button or Enter key, so the content comes from the input
field). `sendOk` records whether the awaited `sendMessage` resolves or
rejects. -/
def send (st : SendState) (text : Option String) (chatId : String)
    (isInsight : Bool) (sendOk : Bool) : SendState :=
  let content := jsTrim (match text with | some t => t | none => st.inputValue)
  if content = "" then st
  else
    let chatType := if isInsight then "insight" else "question"
    let st1 := { st with sendError := none, isThinking := true }
    let st2 := { st1 with setMessageCalls := st1.setMessageCalls ++ [(chatId, content)] }
    let st3 := if text.isNone then { st2 with inputValue := "" } else st2
    let st4 := { st3 with
      sendMessageCalls := st3.sendMessageCalls ++ [(chatId, content, chatType)] }
    let st5 := if sendOk then st4 else { st4 with sendError := some sendErrorText }
    { st5 with isThinking := false }

/-- `insightData` as read by the history effect: only its `userQuestion`
field is consumed. A JS string-or-undefined is `Option String`. -/
structure InsightData where
  userQuestion : Option String
  deriving Repr, DecidableEq

/-- A chat record as consumed by the chat window. -/
structure Chat where
  id : String
  title : Option String
  chatType : String
  insightData : Option InsightData
  deriving Repr, DecidableEq

/-- JavaScript `a || b` on string-or-undefined values: `undefined`, `null`
and the empty string are falsy. -/
def jsOrStr : Option String → Option String → Option String
  | some s, b => if s = "" then b else some s
  | none, b => b

/-- Lines 294-298: `(chat?.insightData?.userQuestion || chat?.title || "").trim()`. -/
def autoQuestion (chat : Chat) : String :=
  jsTrim ((jsOrStr (jsOrStr (chat.insightData.bind InsightData.userQuestion)
    chat.title) (some "")).getD "")

/-- The state the history-load effect (lines 276-315) reads and writes:
the `fetchedHistoryRef` guard set, the `autoAskedByThread` guard set, and the
loading/error flags. -/
structure HistoryState where
  fetchedHistory : List String
  autoAsked : List String
  isLoadingHistory : Bool
  loadError : Option String
  deriving Repr, DecidableEq

/-- The message of the history-load failure alert (line 306). -/
def loadErrorText : String := "Could not load chat history."

/-- The outcome of one run of the history-load effect: the final state, the
`loadMessages` calls that were issued and the automatic sends performed via
`sendRef.current`. -/
structure HistoryRun where
  state : HistoryState
  loadCalls : List String
  autoSends : List String
  deriving Repr, DecidableEq

/-- One run of the async body of the history-load effect, lines 276-315 of
`chat-window.jsx`. `loadOk` records whether `await loadMessages` resolves or
rejects; `loadedAfter` is what `selectMessages(chat.id)` returns after the
load; `cancelled` is the effect-cleanup flag as observed after the await. -/
def runHistoryEffect (st : HistoryState) (chat : Chat) (loadOk : Bool)
    (loadedAfter : List Message) (cancelled : Bool) : HistoryRun :=
  if chat.id = "" then { state := st, loadCalls := [], autoSends := [] }
  else if chat.id ∈ st.fetchedHistory then
    { state := st, loadCalls := [], autoSends := [] }
  else
    let st1 := { st with fetchedHistory := chat.id :: st.fetchedHistory,
                         isLoadingHistory := true, loadError := none }
    let isInsight := chat.chatType = "insight"
    if loadOk then
      if cancelled then
        { state := { st1 with isLoadingHistory := false },
          loadCalls := [chat.id], autoSends := [] }
      else
        let q := autoQuestion chat
        if isInsight ∧ chat.id ∉ st1.autoAsked ∧ loadedAfter.isEmpty ∧ q ≠ "" then
          { state := { st1 with autoAsked := chat.id :: st1.autoAsked,
                                isLoadingHistory := false },
            loadCalls := [chat.id], autoSends := [q] }
        else
          { state := { st1 with isLoadingHistory := false },
            loadCalls := [chat.id], autoSends := [] }
    else
      let st2 := { st1 with fetchedHistory := st1.fetchedHistory.erase chat.id }
      let st3 := if cancelled then st2 else { st2 with loadError := some loadErrorText }
      { state := { st3 with isLoadingHistory := false },
        loadCalls := [chat.id], autoSends := [] }

/-- One derived day-section: the date its header label is computed from
(`headerLabel(d, now)` receives `d`) and the items pushed into it, each the
message together with its resolved date (`{ ...m, _d: d }`). -/
structure DaySection where
  headerDate : JsDate
  items : List (Message × JsDate)
  deriving Repr, DecidableEq

/-- `out[out.length - 1].items.push(...)`: append an item to the last section. -/
def pushLast : List DaySection → Message × JsDate → List DaySection
  | [], _ => []
  | [s], it => [{ s with items := s.items ++ [it] }]
  | s :: rest, it => s :: pushLast rest it

/-- The accumulator of the `messages.forEach` loop in the `sections` memo:
the sections built so far and the `currentKey` variable. -/
structure SectionsAcc where
  out : List DaySection
  currentKey : Option (Int × Nat × Nat)
  deriving Repr, DecidableEq

/-- One iteration of the `forEach` body at lines 358-367 of `chat-window.jsx`. -/
def sectionsStep (now : JsDate) (acc : SectionsAcc) (m : Message) : SectionsAcc :=
  let d := resolveDate m now
  let key := dayKey d
  let out :=
    if acc.currentKey ≠ some key then acc.out ++ [{ headerDate := d, items := [] }]
    else acc.out
  { out := pushLast out (m, d), currentKey := some key }

/-- The `sections` memo, lines 354-369 of `chat-window.jsx`: an empty message
list yields no sections; otherwise the `forEach` loop groups consecutive
messages sharing a calendar-day key. -/
def sections (messages : List Message) (now : JsDate) : List DaySection :=
  if messages.isEmpty then []
  else (messages.foldl (sectionsStep now) { out := [], currentKey := none }).out

/-- Concatenation of all sections' items in section order. -/
def flatItems (out : List DaySection) : List (Message × JsDate) :=
  out.flatMap DaySection.items

/-- An upload task as created at lines 375-382 of `chat-window.jsx`. -/
structure UploadTask where
  id : String
  name : String
  progress : Nat
  done : Bool
  error : Option String
  deriving Repr, DecidableEq

/-- The failure text set in the catch branch of the upload loop (line 401). -/
def uploadErrorText : String := "Upload failed"

/-- Line 376: the task id `` `${chat.id}-${Date.now()}-${f.name}` ``. -/
def mkUploadId (chatId : String) (nowMs : Nat) (name : String) : String :=
  chatId ++ "-" ++ toString nowMs ++ "-" ++ name

/-- Lines 375-382: the upload tasks created for a batch of files (a file is
represented by its name, the only attribute the view reads). -/
def mkUploadItems (chatId : String) (nowMs : Nat) (files : List String) :
    List UploadTask :=
  files.map (fun f =>
    { id := mkUploadId chatId nowMs f, name := f, progress := 0, done := false,
      error := none })

/-- `scheduleRemoval` (lines 226-236), modelled on the set of task ids that
currently have a pending removal timer (`removalTimersRef`): scheduling is a
no-op when a timer for the id is already pending. -/
def scheduleRemoval (timers : List String) (id : String) : List String :=
  if id ∈ timers then timers else timers ++ [id]

/-- The environment's behaviour for one `uploadDocument` call: the sequence of
progress percentages it reports through the callback, and whether it resolves
(`ok = true`) or rejects. -/
structure UploadOutcome where
  reports : List Nat
  ok : Bool
  deriving Repr, DecidableEq

/-- The `setUploads` updater fired by the progress callback (lines 388-390). -/
def applyProgress (u : List UploadTask) (id : String) (pct : Nat) :
    List UploadTask :=
  u.map (fun x => if x.id = id then { x with progress := pct } else x)

/-- The `setUploads` updater on upload success (lines 392-396). -/
def applyDone (u : List UploadTask) (id : String) : List UploadTask :=
  u.map (fun x => if x.id = id then { x with done := true, progress := 100 } else x)

/-- The `setUploads` updater in the catch branch (lines 400-402). -/
def applyFail (u : List UploadTask) (id : String) : List UploadTask :=
  u.map (fun x => if x.id = id then { x with error := some uploadErrorText } else x)

/-- Observable events of the upload loop: `call` marks an `uploadDocument`
call starting (the task going in-flight); `progress` a callback firing;
`done`/`fail` the terminal update that ends the task's flight. -/
inductive UploadEvent where
  | call (id : String)
  | progress (id : String) (pct : Nat)
  | done (id : String)
  | fail (id : String)
  deriving Repr, DecidableEq

/-- The events one iteration of the `for` loop emits for a task: the
`uploadDocument` call, its progress callbacks in order, then exactly one
terminal event chosen by whether the await resolved. -/
def taskEvents (id : String) (oc : UploadOutcome) : List UploadEvent :=
  UploadEvent.call id ::
    (oc.reports.map (UploadEvent.progress id) ++
      [if oc.ok then UploadEvent.done id else UploadEvent.fail id])

/-- One iteration of the `for` loop (lines 385-405): fold the progress
callbacks over the uploads list, then apply the terminal update and schedule
removal. Returns the new uploads list, timer set, and emitted events. -/
def runOneUpload (u : List UploadTask) (timers : List String) (it : UploadTask)
    (oc : UploadOutcome) : List UploadTask × List String × List UploadEvent :=
  let u1 := oc.reports.foldl (fun acc pct => applyProgress acc it.id pct) u
  if oc.ok then
    (applyDone u1 it.id, scheduleRemoval timers it.id, taskEvents it.id oc)
  else
    (applyFail u1 it.id, scheduleRemoval timers it.id, taskEvents it.id oc)

/-- The state threaded through the sequential upload loop. -/
structure UploadRun where
  uploads : List UploadTask
  timers : List String
  trace : List UploadEvent
  deriving Repr, DecidableEq

/-- One step of the sequential loop over `(task, outcome)` pairs. -/
def uploadLoopStep (acc : UploadRun) (p : UploadTask × UploadOutcome) :
    UploadRun :=
  let r := runOneUpload acc.uploads acc.timers p.1 p.2
  { uploads := r.1, timers := r.2.1, trace := acc.trace ++ r.2.2 }

/-- `beginUpload` (lines 373-406): a no-op for insight chats or an empty file
list; otherwise create the tasks, append them to the visible list, and process
them strictly sequentially in submission order. -/
def beginUpload (isInsight : Bool) (chatId : String) (nowMs : Nat)
    (files : List String) (outcomes : List UploadOutcome)
    (uploads0 : List UploadTask) (timers0 : List String) : UploadRun :=
  if isInsight ∨ files.isEmpty then
    { uploads := uploads0, timers := timers0, trace := [] }
  else
    ((mkUploadItems chatId nowMs files).zip outcomes).foldl uploadLoopStep
      { uploads := uploads0 ++ mkUploadItems chatId nowMs files,
        timers := timers0, trace := [] }

/-- Is an event an `uploadDocument` call starting? -/
def isCallEvent : UploadEvent → Bool
  | .call _ => true
  | _ => false

/-- Is an event a terminal (done-or-error) update? -/
def isTerminalEvent : UploadEvent → Bool
  | .done _ => true
  | .fail _ => true
  | _ => false

theorem flatItems_append (a b : List DaySection) :
    flatItems (a ++ b) = flatItems a ++ flatItems b := by
  simp [flatItems]

theorem pushLast_ne_nil (out : List DaySection) (it : Message × JsDate)
    (h : out ≠ []) : pushLast out it ≠ [] := by
  cases out with
  | nil => exact absurd rfl h
  | cons s rest => cases rest <;> simp [pushLast]

theorem flatItems_pushLast (out : List DaySection) (it : Message × JsDate)
    (h : out ≠ []) : flatItems (pushLast out it) = flatItems out ++ [it] := by
  induction out with
  | nil => exact absurd rfl h
  | cons s rest ih =>
    cases rest with
    | nil => simp [pushLast, flatItems]
    | cons t ts =>
      simp only [pushLast, flatItems, List.flatMap_cons] at ih ⊢
      rw [ih (by simp)]
      simp [List.append_assoc]

theorem sectionsStep_out_ne_nil (now : JsDate) (acc : SectionsAcc) (m : Message)
    (hinv : acc.out = [] → acc.currentKey = none) :
    (sectionsStep now acc m).out ≠ [] := by
  simp only [sectionsStep]
  by_cases hk : acc.currentKey ≠ some (dayKey (resolveDate m now))
  · rw [if_pos hk]
    exact pushLast_ne_nil _ _ (by simp)
  · rw [if_neg hk]
    refine pushLast_ne_nil _ _ ?_
    intro hnil
    rw [hinv hnil] at hk
    exact hk (by simp)

theorem sectionsStep_flatItems (now : JsDate) (acc : SectionsAcc) (m : Message)
    (hinv : acc.out = [] → acc.currentKey = none) :
    flatItems (sectionsStep now acc m).out
      = flatItems acc.out ++ [(m, resolveDate m now)] := by
  simp only [sectionsStep]
  by_cases hk : acc.currentKey ≠ some (dayKey (resolveDate m now))
  · rw [if_pos hk]
    rw [flatItems_pushLast _ _ (by simp), flatItems_append]
    simp [flatItems]
  · rw [if_neg hk]
    have hne : acc.out ≠ [] := by
      intro hnil
      rw [hinv hnil] at hk
      exact hk (by simp)
    rw [flatItems_pushLast _ _ hne]

theorem sections_foldl_flatItems (now : JsDate) (msgs : List Message) :
    ∀ acc : SectionsAcc, (acc.out = [] → acc.currentKey = none) →
    flatItems (msgs.foldl (sectionsStep now) acc).out
      = flatItems acc.out ++ msgs.map (fun m => (m, resolveDate m now)) := by
  induction msgs with
  | nil => intro acc _; simp
  | cons m rest ih =>
    intro acc hinv
    have hne := sectionsStep_out_ne_nil now acc m hinv
    rw [List.foldl_cons, ih _ (fun h => absurd h hne),
      sectionsStep_flatItems now acc m hinv]
    simp

/-- The concatenation of all sections' items, with their resolved dates, is the
message list in order, each message paired with `resolveDate`. -/
theorem sections_flatten (msgs : List Message) (now : JsDate) :
    flatItems (sections msgs now) = msgs.map (fun m => (m, resolveDate m now)) := by
  unfold sections
  by_cases h : msgs.isEmpty
  · rw [if_pos h, List.isEmpty_iff.mp h]
    simp [flatItems]
  · rw [if_neg h, sections_foldl_flatItems now msgs _ (fun _ => rfl)]
    simp [flatItems]

/-- C1: For every list of messages, grouping by calendar day partitions the
list: every message is placed in exactly one day-section, each section's items
keep their relative order, and concatenating all sections' items in section
order reproduces the original message list exactly. -/
theorem sections_partition (msgs : List Message) (now : JsDate) :
    ((sections msgs now).flatMap (fun s => s.items.map Prod.fst)) = msgs := by
  have h := sections_flatten msgs now
  have : ((sections msgs now).flatMap (fun s => s.items.map Prod.fst))
      = (flatItems (sections msgs now)).map Prod.fst := by
    simp [flatItems, List.map_flatMap]
  rw [this, h, List.map_map]
  simp [Function.comp_def]

/-- C9: a message whose `createdAt` is missing or unparseable is grouped with
the current time substituted for its date — it appears in a section paired
with `now` (hence under today's day key); `sections` itself is a total
function, so the computation never throws. -/
theorem sections_bad_date_uses_now (msgs : List Message) (now : JsDate)
    (m : Message) (hm : m ∈ msgs)
    (hbad : m.createdAt = CreatedAt.missing ∨ m.createdAt = CreatedAt.invalid) :
    ∃ s, s ∈ sections msgs now ∧ (m, now) ∈ s.items ∧
      dayKey (resolveDate m now) = dayKey now := by
  have hres : resolveDate m now = now := by
    rcases hbad with h | h <;> simp [resolveDate, h]
  have hmem : (m, now) ∈ flatItems (sections msgs now) := by
    rw [sections_flatten]
    exact List.mem_map.mpr ⟨m, hm, by rw [hres]⟩
  rcases List.mem_flatMap.mp hmem with ⟨s, hs, hin⟩
  exact ⟨s, hs, hin, by rw [hres]⟩

/-- Witness for C9: a concrete message with a missing `createdAt`, grouped in a
one-message list; it lands in a section paired with the concrete `now`. -/
theorem sections_bad_date_uses_now_witness :
    ∃ s, s ∈ sections
        [{ id := "m1", type := "user", content := "hi",
           createdAt := CreatedAt.missing }]
        { time := 0, year := 2024, month := 0, day := 2 } ∧
      ({ id := "m1", type := "user", content := "hi",
         createdAt := CreatedAt.missing },
        ({ time := 0, year := 2024, month := 0, day := 2 } : JsDate)) ∈ s.items ∧
      dayKey (resolveDate
          { id := "m1", type := "user", content := "hi",
            createdAt := CreatedAt.missing }
          { time := 0, year := 2024, month := 0, day := 2 })
        = dayKey { time := 0, year := 2024, month := 0, day := 2 } :=
  sections_bad_date_uses_now _ _ _ (List.mem_singleton.mpr rfl) (Or.inl rfl)

/-- C3: invoking `send` on input that trims to the empty string is a no-op:
no `sendMessage` call, no optimistic `setMessage` append, and every piece of
local state is unchanged. -/
theorem send_whitespace_noop (st : SendState) (text : Option String)
    (chatId : String) (isInsight sendOk : Bool)
    (h : jsTrim (match text with | some t => t | none => st.inputValue) = "") :
    send st text chatId isInsight sendOk = st ∧
    (send st text chatId isInsight sendOk).sendMessageCalls = st.sendMessageCalls ∧
    (send st text chatId isInsight sendOk).setMessageCalls = st.setMessageCalls := by
  have hs : send st text chatId isInsight sendOk = st := by
    simp only [send, h, if_true, if_pos trivial]
  exact ⟨hs, by rw [hs], by rw [hs]⟩

/-- Witness for C3: a whitespace-only draft in the input field; `send` leaves
the state untouched. -/
theorem send_whitespace_noop_witness :
    jsTrim "  " = "" ∧
    send { inputValue := "  ", isThinking := false, sendError := none,
           setMessageCalls := [], sendMessageCalls := [] }
        none "c1" false true
      = { inputValue := "  ", isThinking := false, sendError := none,
          setMessageCalls := [], sendMessageCalls := [] } :=
  ⟨by decide,
    (send_whitespace_noop
      { inputValue := "  ", isThinking := false, sendError := none,
        setMessageCalls := [], sendMessageCalls := [] }
      none "c1" false true (by decide)).1⟩

/-- Counterexample to C2 as stated: the draft "hi" is sent from the input
field, `sendMessage` rejects, and afterwards `inputValue` is no longer the
text that was being sent — the input was already cleared before the await. -/
theorem send_failure_preserves_input_counterexample :
    ¬ ((send { inputValue := "hi", isThinking := false, sendError := none,
               setMessageCalls := [], sendMessageCalls := [] }
          none "c1" false false).inputValue = "hi") := by
  decide

/-- C2 (amended): when a send initiated from the input field proceeds past the
emptiness check and then fails, exactly one dismissible send error is shown
(`sendError` is the single error slot rendered as one closable alert), but the
input field is empty: it was cleared when the send was initiated, before the
outcome was known, and is not restored on failure. -/
theorem send_failure_clears_input_and_shows_error (st : SendState)
    (chatId : String) (isInsight : Bool) (h : jsTrim st.inputValue ≠ "") :
    (send st none chatId isInsight false).inputValue = "" ∧
    (send st none chatId isInsight false).sendError = some sendErrorText := by
  simp only [send, if_neg h]
  constructor <;> rfl

/-- Witness for C2 (amended): the concrete draft "hi" with a failing send. -/
theorem send_failure_clears_input_and_shows_error_witness :
    jsTrim ("hi" : String) ≠ "" ∧
    (send { inputValue := "hi", isThinking := false, sendError := none,
            setMessageCalls := [], sendMessageCalls := [] }
        none "c1" false false).inputValue = "" ∧
    (send { inputValue := "hi", isThinking := false, sendError := none,
            setMessageCalls := [], sendMessageCalls := [] }
        none "c1" false false).sendError = some sendErrorText :=
  ⟨by decide,
    send_failure_clears_input_and_shows_error
      { inputValue := "hi", isThinking := false, sendError := none,
        setMessageCalls := [], sendMessageCalls := [] }
      "c1" false (by decide)⟩

theorem runHistoryEffect_success_fetched (st : HistoryState) (chat : Chat)
    (loaded : List Message) (c : Bool) (hid : chat.id ≠ "")
    (hnew : chat.id ∉ st.fetchedHistory) :
    (runHistoryEffect st chat true loaded c).state.fetchedHistory
      = chat.id :: st.fetchedHistory := by
  simp only [runHistoryEffect]
  rw [if_neg hid, if_neg hnew, if_pos trivial]
  split
  · rfl
  · split <;> rfl

theorem runHistoryEffect_failure_fetched (st : HistoryState) (chat : Chat)
    (loaded : List Message) (c : Bool) (hid : chat.id ≠ "")
    (hnew : chat.id ∉ st.fetchedHistory) :
    (runHistoryEffect st chat false loaded c).state.fetchedHistory
      = st.fetchedHistory := by
  simp only [runHistoryEffect]
  rw [if_neg hid, if_neg hnew, if_neg Bool.false_ne_true]
  cases c <;> simp [List.erase_cons_head]

theorem runHistoryEffect_loadCalls_fresh (st : HistoryState) (chat : Chat)
    (ok : Bool) (loaded : List Message) (c : Bool) (hid : chat.id ≠ "")
    (hnew : chat.id ∉ st.fetchedHistory) :
    (runHistoryEffect st chat ok loaded c).loadCalls = [chat.id] := by
  simp only [runHistoryEffect]
  rw [if_neg hid, if_neg hnew]
  cases ok <;> cases c
  · rfl
  · rfl
  · rw [if_pos rfl, if_neg Bool.false_ne_true]
    split <;> rfl
  · rfl

theorem runHistoryEffect_guarded (st : HistoryState) (chat : Chat)
    (ok : Bool) (loaded : List Message) (c : Bool) (hid : chat.id ≠ "")
    (hmem : chat.id ∈ st.fetchedHistory) :
    runHistoryEffect st chat ok loaded c
      = { state := st, loadCalls := [], autoSends := [] } := by
  simp only [runHistoryEffect]
  rw [if_neg hid, if_pos hmem]

/-- C4: a chat id not yet in the fetch guard gets exactly one `loadMessages`
call from the first effect run, and — the load having succeeded — any further
run for the same id (any load result, any loaded history, cancelled or not)
issues no `loadMessages` call: the guard set retains the id. -/
theorem history_load_once (st : HistoryState) (chat : Chat)
    (loaded : List Message) (c : Bool) (hid : chat.id ≠ "")
    (hnew : chat.id ∉ st.fetchedHistory) :
    (runHistoryEffect st chat true loaded c).loadCalls = [chat.id] ∧
    ∀ (ok2 : Bool) (loaded2 : List Message) (c2 : Bool),
      (runHistoryEffect (runHistoryEffect st chat true loaded c).state
        chat ok2 loaded2 c2).loadCalls = [] := by
  refine ⟨runHistoryEffect_loadCalls_fresh st chat true loaded c hid hnew, ?_⟩
  intro ok2 loaded2 c2
  have hmem : chat.id ∈ (runHistoryEffect st chat true loaded c).state.fetchedHistory := by
    rw [runHistoryEffect_success_fetched st chat loaded c hid hnew]
    exact List.mem_cons_self _ _
  rw [runHistoryEffect_guarded _ chat ok2 loaded2 c2 hid hmem]

/-- Witness for C4: a fresh chat id "c1"; the first run issues one load call
and a re-run after that success issues none. -/
theorem history_load_once_witness :
    (({ id := "c1", title := some "T", chatType := "question",
        insightData := none } : Chat).id ≠ "") ∧
    (runHistoryEffect
        { fetchedHistory := [], autoAsked := [], isLoadingHistory := false,
          loadError := none }
        { id := "c1", title := some "T", chatType := "question",
          insightData := none } true [] false).loadCalls = ["c1"] ∧
    (runHistoryEffect
        (runHistoryEffect
          { fetchedHistory := [], autoAsked := [], isLoadingHistory := false,
            loadError := none }
          { id := "c1", title := some "T", chatType := "question",
            insightData := none } true [] false).state
        { id := "c1", title := some "T", chatType := "question",
          insightData := none } true [] false).loadCalls = [] :=
  ⟨by decide,
    (history_load_once
      { fetchedHistory := [], autoAsked := [], isLoadingHistory := false,
        loadError := none }
      { id := "c1", title := some "T", chatType := "question",
        insightData := none } [] false (by decide) (by decide)).1,
    (history_load_once
      { fetchedHistory := [], autoAsked := [], isLoadingHistory := false,
        loadError := none }
      { id := "c1", title := some "T", chatType := "question",
        insightData := none } [] false (by decide) (by decide)).2 true [] false⟩

/-- C5: when the load fails, the catch block removes the chat id from the
fetch guard, so the state after the failed run no longer contains the id and
a subsequent run for the same id issues a new `loadMessages` call. -/
theorem history_load_retry_after_failure (st : HistoryState) (chat : Chat)
    (loaded : List Message) (c : Bool) (hid : chat.id ≠ "")
    (hnew : chat.id ∉ st.fetchedHistory) :
    chat.id ∉ (runHistoryEffect st chat false loaded c).state.fetchedHistory ∧
    ∀ (ok2 : Bool) (loaded2 : List Message) (c2 : Bool),
      (runHistoryEffect (runHistoryEffect st chat false loaded c).state
        chat ok2 loaded2 c2).loadCalls = [chat.id] := by
  have hf := runHistoryEffect_failure_fetched st chat loaded c hid hnew
  refine ⟨by rw [hf]; exact hnew, ?_⟩
  intro ok2 loaded2 c2
  exact runHistoryEffect_loadCalls_fresh _ chat ok2 loaded2 c2 hid (by rw [hf]; exact hnew)

/-- Witness for C5: chat id "c1" fails to load, then the second run issues a
new load call. -/
theorem history_load_retry_after_failure_witness :
    ("c1" : String) ∉ (runHistoryEffect
        { fetchedHistory := [], autoAsked := [], isLoadingHistory := false,
          loadError := none }
        { id := "c1", title := some "T", chatType := "question",
          insightData := none } false [] false).state.fetchedHistory ∧
    (runHistoryEffect
        (runHistoryEffect
          { fetchedHistory := [], autoAsked := [], isLoadingHistory := false,
            loadError := none }
          { id := "c1", title := some "T", chatType := "question",
            insightData := none } false [] false).state
        { id := "c1", title := some "T", chatType := "question",
          insightData := none } true [] false).loadCalls = ["c1"] :=
  ⟨(history_load_retry_after_failure
      { fetchedHistory := [], autoAsked := [], isLoadingHistory := false,
        loadError := none }
      { id := "c1", title := some "T", chatType := "question",
        insightData := none } [] false (by decide) (by decide)).1,
    (history_load_retry_after_failure
      { fetchedHistory := [], autoAsked := [], isLoadingHistory := false,
        loadError := none }
      { id := "c1", title := some "T", chatType := "question",
        insightData := none } [] false (by decide) (by decide)).2 true [] false⟩

theorem runHistoryEffect_autoSends_insight (st : HistoryState) (chat : Chat)
    (hty : chat.chatType = "insight") (hid : chat.id ≠ "")
    (hf : chat.id ∉ st.fetchedHistory) (ha : chat.id ∉ st.autoAsked) :
    (runHistoryEffect st chat true [] false).autoSends
      = if autoQuestion chat ≠ "" then [autoQuestion chat] else [] := by
  simp only [runHistoryEffect]
  rw [if_neg hid, if_neg hf, if_pos trivial, if_neg Bool.false_ne_true]
  by_cases hq : autoQuestion chat = ""
  · rw [if_neg (fun hc => hc.2.2.2 hq), if_neg (not_not_intro hq)]
  · rw [if_pos ⟨hty, ha, rfl, hq⟩, if_pos hq]

/-- C6: for an insight chat whose loaded history is empty and whose resolved
question is non-empty, the first (successful, uncancelled) effect run performs
exactly one automatic send of that question, and any later run for the same
chat id performs none. -/
theorem insight_auto_send_once (st : HistoryState) (chat : Chat)
    (hty : chat.chatType = "insight") (hid : chat.id ≠ "")
    (hf : chat.id ∉ st.fetchedHistory) (ha : chat.id ∉ st.autoAsked)
    (hq : autoQuestion chat ≠ "") :
    (runHistoryEffect st chat true [] false).autoSends = [autoQuestion chat] ∧
    ∀ (ok2 : Bool) (loaded2 : List Message) (c2 : Bool),
      (runHistoryEffect (runHistoryEffect st chat true [] false).state
        chat ok2 loaded2 c2).autoSends = [] := by
  constructor
  · rw [runHistoryEffect_autoSends_insight st chat hty hid hf ha, if_pos hq]
  · intro ok2 loaded2 c2
    have hmem : chat.id ∈ (runHistoryEffect st chat true [] false).state.fetchedHistory := by
      rw [runHistoryEffect_success_fetched st chat [] false hid hf]
      exact List.mem_cons_self _ _
    rw [runHistoryEffect_guarded _ chat ok2 loaded2 c2 hid hmem]

/-- Witness for C6: an insight chat with question " What? "; the first run
auto-sends the trimmed question once, a second run sends nothing. -/
theorem insight_auto_send_once_witness :
    autoQuestion
      { id := "i1", title := some "Title", chatType := "insight",
        insightData := some { userQuestion := some " What? " } } ≠ "" ∧
    (runHistoryEffect
        { fetchedHistory := [], autoAsked := [], isLoadingHistory := false,
          loadError := none }
        { id := "i1", title := some "Title", chatType := "insight",
          insightData := some { userQuestion := some " What? " } }
        true [] false).autoSends = ["What?"] ∧
    (runHistoryEffect
        (runHistoryEffect
          { fetchedHistory := [], autoAsked := [], isLoadingHistory := false,
            loadError := none }
          { id := "i1", title := some "Title", chatType := "insight",
            insightData := some { userQuestion := some " What? " } }
          true [] false).state
        { id := "i1", title := some "Title", chatType := "insight",
          insightData := some { userQuestion := some " What? " } }
        true [] false).autoSends = [] := by
  have h := insight_auto_send_once
    { fetchedHistory := [], autoAsked := [], isLoadingHistory := false,
      loadError := none }
    { id := "i1", title := some "Title", chatType := "insight",
      insightData := some { userQuestion := some " What? " } }
    rfl (by decide) (by decide) (by decide) (by decide)
  exact ⟨by decide, by rw [h.1]; decide, h.2 true [] false⟩

/-- C10: the automatically submitted question is `insightData.userQuestion`
when that is present and non-empty, otherwise the chat's title, trimmed; and
(for an insight chat with empty loaded history, fresh id, successful and
uncancelled run) the automatic send happens exactly when this trimmed fallback
string is non-empty, sending exactly that string. -/
theorem auto_question_fallback (st : HistoryState) (chat : Chat)
    (hty : chat.chatType = "insight") (hid : chat.id ≠ "")
    (hf : chat.id ∉ st.fetchedHistory) (ha : chat.id ∉ st.autoAsked) :
    (∀ s, chat.insightData.bind InsightData.userQuestion = some s → s ≠ "" →
        autoQuestion chat = jsTrim s) ∧
    (∀ t, (chat.insightData.bind InsightData.userQuestion = none ∨
           chat.insightData.bind InsightData.userQuestion = some "") →
        chat.title = some t → autoQuestion chat = jsTrim t) ∧
    ((runHistoryEffect st chat true [] false).autoSends ≠ [] ↔
        autoQuestion chat ≠ "") ∧
    (autoQuestion chat ≠ "" →
        (runHistoryEffect st chat true [] false).autoSends = [autoQuestion chat]) := by
  have hsends := runHistoryEffect_autoSends_insight st chat hty hid hf ha
  refine ⟨?_, ?_, ?_, ?_⟩
  · intro s hs hne
    simp [autoQuestion, hs, jsOrStr, hne]
  · intro t hfalsy ht
    rcases hfalsy with h | h
    · by_cases hte : t = ""
      · subst hte; simp [autoQuestion, h, ht, jsOrStr]
      · simp [autoQuestion, h, ht, jsOrStr, hte]
    · by_cases hte : t = ""
      · subst hte; simp [autoQuestion, h, ht, jsOrStr]
      · simp [autoQuestion, h, ht, jsOrStr, hte]
  · rw [hsends]
    by_cases hq : autoQuestion chat = ""
    · rw [if_neg (not_not_intro hq)]
      simp [hq]
    · rw [if_pos hq]
      simp [hq]
  · intro hq
    rw [hsends, if_pos hq]

/-- Witness for C10: the concrete insight chat with `userQuestion` " What? "
and title "Title": the question wins over the title, and the auto-send fires
with the trimmed question. -/
theorem auto_question_fallback_witness :
    autoQuestion
      { id := "i1", title := some "Title", chatType := "insight",
        insightData := some { userQuestion := some " What? " } } = "What?" ∧
    (runHistoryEffect
        { fetchedHistory := [], autoAsked := [], isLoadingHistory := false,
          loadError := none }
        { id := "i1", title := some "Title", chatType := "insight",
          insightData := some { userQuestion := some " What? " } }
        true [] false).autoSends
      = [autoQuestion
          { id := "i1", title := some "Title", chatType := "insight",
            insightData := some { userQuestion := some " What? " } }] :=
  ⟨by decide,
    (auto_question_fallback
      { fetchedHistory := [], autoAsked := [], isLoadingHistory := false,
        loadError := none }
      { id := "i1", title := some "Title", chatType := "insight",
        insightData := some { userQuestion := some " What? " } }
      rfl (by decide) (by decide) (by decide)).2.2.2 (by decide)⟩

theorem countP_call_progress_map (id : String) (rs : List Nat) :
    (rs.map (UploadEvent.progress id)).countP isCallEvent = 0 := by
  rw [List.countP_eq_zero]
  intro a ha
  rcases List.mem_map.mp ha with ⟨p, _, rfl⟩
  simp [isCallEvent]

theorem countP_term_progress_map (id : String) (rs : List Nat) :
    (rs.map (UploadEvent.progress id)).countP isTerminalEvent = 0 := by
  rw [List.countP_eq_zero]
  intro a ha
  rcases List.mem_map.mp ha with ⟨p, _, rfl⟩
  simp [isTerminalEvent]

theorem taskEvents_countP_call (id : String) (oc : UploadOutcome) :
    (taskEvents id oc).countP isCallEvent = 1 := by
  cases hok : oc.ok <;>
    simp [taskEvents, hok, List.countP_cons, List.countP_append,
      countP_call_progress_map, isCallEvent]

theorem taskEvents_countP_term (id : String) (oc : UploadOutcome) :
    (taskEvents id oc).countP isTerminalEvent = 1 := by
  cases hok : oc.ok <;>
    simp [taskEvents, hok, List.countP_cons, List.countP_append,
      countP_term_progress_map, isTerminalEvent]

theorem taskEvents_prefix_balance (id : String) (oc : UploadOutcome)
    (pre suf : List UploadEvent) (h : taskEvents id oc = pre ++ suf) :
    pre.countP isTerminalEvent ≤ pre.countP isCallEvent ∧
    pre.countP isCallEvent ≤ pre.countP isTerminalEvent + 1 := by
  cases pre with
  | nil => simp
  | cons e pre' =>
    simp only [taskEvents, List.cons_append] at h
    injection h with h1 h2
    have hsub : pre'.Sublist
        (oc.reports.map (UploadEvent.progress id) ++
          [if oc.ok then UploadEvent.done id else UploadEvent.fail id]) := by
      rw [h2]
      exact List.sublist_append_left pre' suf
    have hcall0 : pre'.countP isCallEvent = 0 := by
      have hle := hsub.countP_le isCallEvent
      rw [List.countP_append, countP_call_progress_map] at hle
      have : List.countP isCallEvent
          [if oc.ok then UploadEvent.done id else UploadEvent.fail id] = 0 := by
        cases oc.ok <;> simp [isCallEvent]
      omega
    have hterm1 : pre'.countP isTerminalEvent ≤ 1 := by
      have hle := hsub.countP_le isTerminalEvent
      rw [List.countP_append, countP_term_progress_map] at hle
      have : List.countP isTerminalEvent
          [if oc.ok then UploadEvent.done id else UploadEvent.fail id] = 1 := by
        cases oc.ok <;> simp [isTerminalEvent]
      omega
    subst h1
    rw [List.countP_cons, List.countP_cons]
    simp [isCallEvent, isTerminalEvent]
    omega

theorem flatMap_taskEvents_prefix_balance
    (ps : List (UploadTask × UploadOutcome)) :
    ∀ pre suf : List UploadEvent,
      ps.flatMap (fun p => taskEvents p.1.id p.2) = pre ++ suf →
      pre.countP isTerminalEvent ≤ pre.countP isCallEvent ∧
      pre.countP isCallEvent ≤ pre.countP isTerminalEvent + 1 := by
  induction ps with
  | nil =>
    intro pre suf h
    have hpre : pre = [] := by
      cases pre with
      | nil => rfl
      | cons a l => simp at h
    subst hpre
    simp
  | cons p ps ih =>
    intro pre suf h
    rw [List.flatMap_cons] at h
    rcases List.append_eq_append_iff.mp h with ⟨a', hc, hb⟩ | ⟨c', ha, _⟩
    · subst hc
      have hrest := ih a' suf hb
      have hc1 := taskEvents_countP_call p.1.id p.2
      have ht1 := taskEvents_countP_term p.1.id p.2
      rw [List.countP_append, List.countP_append, hc1, ht1]
      omega
    · exact taskEvents_prefix_balance p.1.id p.2 pre c' ha

theorem runOneUpload_trace (u : List UploadTask) (timers : List String)
    (it : UploadTask) (oc : UploadOutcome) :
    (runOneUpload u timers it oc).2.2 = taskEvents it.id oc := by
  simp only [runOneUpload]
  split <;> rfl

theorem uploadLoop_trace (ps : List (UploadTask × UploadOutcome)) :
    ∀ acc : UploadRun, (ps.foldl uploadLoopStep acc).trace
      = acc.trace ++ ps.flatMap (fun p => taskEvents p.1.id p.2) := by
  induction ps with
  | nil => intro acc; simp
  | cons p ps ih =>
    intro acc
    rw [List.foldl_cons, ih, List.flatMap_cons]
    simp only [uploadLoopStep, runOneUpload_trace]
    rw [List.append_assoc]

theorem beginUpload_eq (chatId : String) (nowMs : Nat) (files : List String)
    (outcomes : List UploadOutcome) (uploads0 : List UploadTask)
    (timers0 : List String) (hfe : files ≠ []) :
    beginUpload false chatId nowMs files outcomes uploads0 timers0
      = ((mkUploadItems chatId nowMs files).zip outcomes).foldl uploadLoopStep
          { uploads := uploads0 ++ mkUploadItems chatId nowMs files,
            timers := timers0, trace := [] } := by
  unfold beginUpload
  rw [if_neg]
  rintro (h | h)
  · exact Bool.false_ne_true h
  · exact hfe (List.isEmpty_iff.mp h)

theorem beginUpload_trace (chatId : String) (nowMs : Nat) (files : List String)
    (outcomes : List UploadOutcome) (uploads0 : List UploadTask)
    (timers0 : List String) (hfe : files ≠ []) :
    (beginUpload false chatId nowMs files outcomes uploads0 timers0).trace
      = ((mkUploadItems chatId nowMs files).zip outcomes).flatMap
          (fun p => taskEvents p.1.id p.2) := by
  rw [beginUpload_eq chatId nowMs files outcomes uploads0 timers0 hfe,
    uploadLoop_trace]
  rfl

theorem filter_call_progress_map (id : String) (rs : List Nat) :
    (rs.map (UploadEvent.progress id)).filter isCallEvent = [] := by
  induction rs with
  | nil => rfl
  | cons r rs ih => simp [isCallEvent, ih]

theorem filter_term_progress_map (id : String) (rs : List Nat) :
    (rs.map (UploadEvent.progress id)).filter isTerminalEvent = [] := by
  induction rs with
  | nil => rfl
  | cons r rs ih => simp [isTerminalEvent, ih]

theorem taskEvents_filter_call (id : String) (oc : UploadOutcome) :
    (taskEvents id oc).filter isCallEvent = [UploadEvent.call id] := by
  cases hok : oc.ok <;>
    simp [taskEvents, hok, List.filter_append, filter_call_progress_map,
      isCallEvent]

theorem taskEvents_filter_term (id : String) (oc : UploadOutcome) :
    (taskEvents id oc).filter isTerminalEvent
      = [if oc.ok then UploadEvent.done id else UploadEvent.fail id] := by
  cases hok : oc.ok <;>
    simp [taskEvents, hok, List.filter_append, filter_term_progress_map,
      isTerminalEvent]

theorem filter_flatMap_events (p : UploadEvent → Bool)
    (ps : List (UploadTask × UploadOutcome))
    (f : UploadTask × UploadOutcome → List UploadEvent) :
    (ps.flatMap f).filter p = ps.flatMap (fun q => (f q).filter p) := by
  induction ps with
  | nil => rfl
  | cons q ps ih => rw [List.flatMap_cons, List.flatMap_cons, List.filter_append, ih]

theorem flatMap_singleton_eq_map {α β : Type} (f : α → β) (l : List α) :
    l.flatMap (fun x => [f x]) = l.map f := by
  induction l with
  | nil => rfl
  | cons a l ih => rw [List.flatMap_cons, List.map_cons, ih]; rfl

theorem mem_applyProgress_of_ne (u : List UploadTask) (id : String) (pct : Nat)
    (x : UploadTask) (hx : x ∈ u) (hne : x.id ≠ id) :
    x ∈ applyProgress u id pct := by
  have h := List.mem_map_of_mem
    (fun y => if y.id = id then { y with progress := pct } else y) hx
  simpa [applyProgress, hne] using h

theorem mem_reports_foldl_of_ne (rs : List Nat) (id : String) (x : UploadTask)
    (hne : x.id ≠ id) :
    ∀ u : List UploadTask, x ∈ u →
      x ∈ rs.foldl (fun acc pct => applyProgress acc id pct) u := by
  induction rs with
  | nil => intro u hx; simpa using hx
  | cons r rs ih =>
    intro u hx
    exact ih _ (mem_applyProgress_of_ne u id r x hx hne)

theorem mem_runOneUpload_of_ne (u : List UploadTask) (timers : List String)
    (it : UploadTask) (oc : UploadOutcome) (x : UploadTask)
    (hx : x ∈ u) (hne : x.id ≠ it.id) :
    x ∈ (runOneUpload u timers it oc).1 := by
  have h1 : x ∈ oc.reports.foldl (fun acc pct => applyProgress acc it.id pct) u :=
    mem_reports_foldl_of_ne oc.reports it.id x hne u hx
  simp only [runOneUpload]
  split
  · have h := List.mem_map_of_mem
      (fun y => if y.id = it.id then { y with done := true, progress := 100 } else y) h1
    simpa [applyDone, hne] using h
  · have h := List.mem_map_of_mem
      (fun y => if y.id = it.id then { y with error := some uploadErrorText } else y) h1
    simpa [applyFail, hne] using h

theorem mem_uploadLoop_of_ne (ps : List (UploadTask × UploadOutcome)) :
    ∀ (acc : UploadRun) (x : UploadTask), (∀ r ∈ ps, x.id ≠ r.1.id) →
      x ∈ acc.uploads → x ∈ (ps.foldl uploadLoopStep acc).uploads := by
  induction ps with
  | nil => intro acc x _ hx; simpa using hx
  | cons q ps ih =>
    intro acc x hne hx
    rw [List.foldl_cons]
    refine ih _ x (fun r hr => hne r (List.mem_cons_of_mem _ hr)) ?_
    exact mem_runOneUpload_of_ne acc.uploads acc.timers q.1 q.2 x hx
      (hne q (List.mem_cons_self _ _))

theorem tracked_reports_foldl (rs : List Nat) (id : String) :
    ∀ (u : List UploadTask) (x : UploadTask), x ∈ u → x.id = id →
      ∃ y ∈ rs.foldl (fun acc pct => applyProgress acc id pct) u,
        y.id = id ∧ y.name = x.name ∧ y.done = x.done ∧ y.error = x.error := by
  induction rs with
  | nil =>
    intro u x hx hid
    exact ⟨x, by simpa using hx, hid, rfl, rfl, rfl⟩
  | cons r rs ih =>
    intro u x hx hid
    have hx' : ({ x with progress := r } : UploadTask) ∈ applyProgress u id r := by
      have h := List.mem_map_of_mem
        (fun y => if y.id = id then { y with progress := r } else y) hx
      simpa [applyProgress, hid] using h
    exact ih (applyProgress u id r) { x with progress := r } hx' hid

theorem runOneUpload_tracked (u : List UploadTask) (timers : List String)
    (it : UploadTask) (oc : UploadOutcome) (hx : it ∈ u) :
    ∃ y ∈ (runOneUpload u timers it oc).1,
      y.id = it.id ∧ y.name = it.name ∧
      (oc.ok = true → y.done = true ∧ y.progress = 100) ∧
      (oc.ok = false → y.error = some uploadErrorText) := by
  obtain ⟨y, hy, hyid, hyname, _, hyerr⟩ :=
    tracked_reports_foldl oc.reports it.id u it hx rfl
  simp only [runOneUpload]
  cases hok : oc.ok
  · rw [if_neg (by simp [hok])]
    refine ⟨{ y with error := some uploadErrorText }, ?_, hyid, hyname, ?_, ?_⟩
    · have h := List.mem_map_of_mem
        (fun z => if z.id = it.id then { z with error := some uploadErrorText } else z) hy
      simpa [applyFail, hyid] using h
    · intro h; exact absurd h (by simp)
    · intro _; rfl
  · rw [if_pos rfl]
    refine ⟨{ y with done := true, progress := 100 }, ?_, hyid, hyname, ?_, ?_⟩
    · have h := List.mem_map_of_mem
        (fun z => if z.id = it.id then { z with done := true, progress := 100 } else z) hy
      simpa [applyDone, hyid] using h
    · intro _; exact ⟨rfl, rfl⟩
    · intro h; exact absurd h (by simp)

theorem uploadLoop_final (ps : List (UploadTask × UploadOutcome)) :
    ∀ acc : UploadRun,
      (∀ p ∈ ps, p.1 ∈ acc.uploads) →
      List.Pairwise (fun p q : UploadTask × UploadOutcome => p.1.id ≠ q.1.id) ps →
      ∀ p ∈ ps, ∃ x ∈ (ps.foldl uploadLoopStep acc).uploads,
        x.id = p.1.id ∧ x.name = p.1.name ∧
        (p.2.ok = true → x.done = true ∧ x.progress = 100) ∧
        (p.2.ok = false → x.error = some uploadErrorText) := by
  induction ps with
  | nil => intro acc _ _ p hp; cases hp
  | cons q ps ih =>
    intro acc hmem hpw p hp
    have hq_ne : ∀ r ∈ ps, q.1.id ≠ r.1.id := (List.pairwise_cons.mp hpw).1
    have hpwtail := (List.pairwise_cons.mp hpw).2
    rw [List.foldl_cons]
    rcases List.mem_cons.mp hp with rfl | hp'
    · obtain ⟨y, hy, hyid, hyname, hok, hfail⟩ :=
        runOneUpload_tracked acc.uploads acc.timers p.1 p.2
          (hmem p (List.mem_cons_self _ _))
      have hy' : y ∈ (uploadLoopStep acc p).uploads := hy
      have hyfinal : y ∈ (ps.foldl uploadLoopStep (uploadLoopStep acc p)).uploads :=
        mem_uploadLoop_of_ne ps _ y
          (fun r hr => by rw [hyid]; exact hq_ne r hr) hy'
      exact ⟨y, hyfinal, hyid, hyname, hok, hfail⟩
    · refine ih (uploadLoopStep acc q) ?_ hpwtail p hp'
      intro r hr
      have hrmem : r.1 ∈ acc.uploads := hmem r (List.mem_cons_of_mem _ hr)
      exact mem_runOneUpload_of_ne acc.uploads acc.timers q.1 q.2 r.1 hrmem
        (Ne.symm (hq_ne r hr))

/-- C7: the upload loop processes a batch strictly one at a time in submission
order. Every prefix of the event trace has at most one task in flight (calls
minus terminals is 0 or 1 and never negative); the `uploadDocument` calls and
the terminal events each occur exactly once per task, in submission order,
with the terminal kind chosen by the outcome; and each task's final record is
done at progress 100 on success or carries the upload error on failure. -/
theorem uploads_sequential (chatId : String) (nowMs : Nat)
    (files : List String) (outcomes : List UploadOutcome)
    (uploads0 : List UploadTask) (timers0 : List String)
    (hfe : files ≠ []) (hlen : outcomes.length = files.length)
    (hnodup : ((mkUploadItems chatId nowMs files).map UploadTask.id).Nodup) :
    (∀ pre suf : List UploadEvent,
      (beginUpload false chatId nowMs files outcomes uploads0 timers0).trace
          = pre ++ suf →
      pre.countP isTerminalEvent ≤ pre.countP isCallEvent ∧
      pre.countP isCallEvent ≤ pre.countP isTerminalEvent + 1) ∧
    (beginUpload false chatId nowMs files outcomes uploads0 timers0).trace.filter
        isCallEvent
      = ((mkUploadItems chatId nowMs files).zip outcomes).map
          (fun p => UploadEvent.call p.1.id) ∧
    (beginUpload false chatId nowMs files outcomes uploads0 timers0).trace.filter
        isTerminalEvent
      = ((mkUploadItems chatId nowMs files).zip outcomes).map
          (fun p => if p.2.ok then UploadEvent.done p.1.id
            else UploadEvent.fail p.1.id) ∧
    ∀ p ∈ (mkUploadItems chatId nowMs files).zip outcomes,
      ∃ x ∈ (beginUpload false chatId nowMs files outcomes uploads0 timers0).uploads,
        x.id = p.1.id ∧ x.name = p.1.name ∧
        (p.2.ok = true → x.done = true ∧ x.progress = 100) ∧
        (p.2.ok = false → x.error = some uploadErrorText) := by
  have htrace := beginUpload_trace chatId nowMs files outcomes uploads0 timers0 hfe
  have hlen2 : (mkUploadItems chatId nowMs files).length ≤ outcomes.length := by
    rw [hlen, mkUploadItems, List.length_map]
  have hfst : ((mkUploadItems chatId nowMs files).zip outcomes).map Prod.fst
      = mkUploadItems chatId nowMs files :=
    List.map_fst_zip _ _ hlen2
  refine ⟨?_, ?_, ?_, ?_⟩
  · intro pre suf h
    rw [htrace] at h
    exact flatMap_taskEvents_prefix_balance _ pre suf h
  · rw [htrace, filter_flatMap_events]
    simp only [taskEvents_filter_call]
    exact flatMap_singleton_eq_map _ _
  · rw [htrace, filter_flatMap_events]
    simp only [taskEvents_filter_term]
    exact flatMap_singleton_eq_map _ _
  · rw [beginUpload_eq chatId nowMs files outcomes uploads0 timers0 hfe]
    apply uploadLoop_final
    · intro p hp
      have hm := List.of_mem_zip (a := p.1) (b := p.2) hp
      exact List.mem_append_right _ hm.1
    · have hpw : (mkUploadItems chatId nowMs files).Pairwise
          (fun a b : UploadTask => a.id ≠ b.id) :=
        List.pairwise_map.mp hnodup
      have hpw2 : (((mkUploadItems chatId nowMs files).zip outcomes).map
          Prod.fst).Pairwise (fun a b : UploadTask => a.id ≠ b.id) := by
        rw [hfst]
        exact hpw
      exact (List.pairwise_map (f := Prod.fst)
        (R := fun a b : UploadTask => a.id ≠ b.id)).mp hpw2

/-- Witness for C7: three files with outcomes success, failure, success; the
terminal events come in submission order and the final records match. -/
theorem uploads_sequential_witness :
    (beginUpload false "c1" 5 ["a.txt", "b.txt", "c.txt"]
        [⟨[10, 60], true⟩, ⟨[20], false⟩, ⟨[], true⟩] [] []).trace.filter
        isTerminalEvent
      = ((mkUploadItems "c1" 5 ["a.txt", "b.txt", "c.txt"]).zip
          ([⟨[10, 60], true⟩, ⟨[20], false⟩, ⟨[], true⟩] : List UploadOutcome)).map
          (fun p => if p.2.ok then UploadEvent.done p.1.id
            else UploadEvent.fail p.1.id) ∧
    ∀ p ∈ (mkUploadItems "c1" 5 ["a.txt", "b.txt", "c.txt"]).zip
        ([⟨[10, 60], true⟩, ⟨[20], false⟩, ⟨[], true⟩] : List UploadOutcome),
      ∃ x ∈ (beginUpload false "c1" 5 ["a.txt", "b.txt", "c.txt"]
          [⟨[10, 60], true⟩, ⟨[20], false⟩, ⟨[], true⟩] [] []).uploads,
        x.id = p.1.id ∧ x.name = p.1.name ∧
        (p.2.ok = true → x.done = true ∧ x.progress = 100) ∧
        (p.2.ok = false → x.error = some uploadErrorText) :=
  ⟨(uploads_sequential "c1" 5 ["a.txt", "b.txt", "c.txt"]
      [⟨[10, 60], true⟩, ⟨[20], false⟩, ⟨[], true⟩] [] []
      (by decide) (by decide) (by decide)).2.2.1,
    (uploads_sequential "c1" 5 ["a.txt", "b.txt", "c.txt"]
      [⟨[10, 60], true⟩, ⟨[20], false⟩, ⟨[], true⟩] [] []
      (by decide) (by decide) (by decide)).2.2.2⟩

/-- C8: scheduling removal of an upload task is idempotent-guarded: when a
removal timer for the id is already pending the call is a no-op, scheduling
twice equals scheduling once, and afterwards exactly one pending removal timer
exists for the id — the task will be removed exactly once. -/
theorem scheduleRemoval_once (timers : List String) (id : String) :
    (id ∈ timers → scheduleRemoval timers id = timers) ∧
    scheduleRemoval (scheduleRemoval timers id) id = scheduleRemoval timers id ∧
    (timers.count id ≤ 1 → (scheduleRemoval timers id).count id = 1) := by
  refine ⟨fun h => by simp [scheduleRemoval, h], ?_, ?_⟩
  · by_cases h : id ∈ timers <;> simp [scheduleRemoval, h]
  · intro hle
    by_cases h : id ∈ timers
    · have hpos : 0 < timers.count id := List.count_pos_iff.mpr h
      simp only [scheduleRemoval, if_pos h]
      omega
    · have h0 : timers.count id = 0 := List.count_eq_zero.mpr h
      simp [scheduleRemoval, h, List.count_append, h0]

/-- Witness for C8: with a pending timer for "u1" and none for "u2",
scheduling "u2" twice equals scheduling it once and leaves exactly one pending
timer for "u2". -/
theorem scheduleRemoval_once_witness :
    scheduleRemoval (scheduleRemoval ["u1"] "u2") "u2"
      = scheduleRemoval ["u1"] "u2" ∧
    (scheduleRemoval ["u1"] "u2").count "u2" = 1 :=
  ⟨(scheduleRemoval_once ["u1"] "u2").2.1,
    (scheduleRemoval_once ["u1"] "u2").2.2 (by decide)⟩

end CrdaFrontend
